import Mathlib

/-!
Verification development for the Bannerlord Vortex extension
(module cache, load-order reconciliation, launcher-data parsing and the
load-order item renderer).

The definitions below are a shallow embedding of the TypeScript source:

* JavaScript `Map` objects (the module cache) are embedded as association
  lists `List (String × ModuleData)` whose key order is the map's
  insertion order; `Map.get` is first-match lookup and `Map.set` replaces
  an existing key in place or appends.
* Plain objects used as dictionaries (the persisted load order) are also
  association lists; `Object.keys` is the list of first components.  The
  keys involved are module identifiers, which are not array indices, so
  JavaScript enumerates them in insertion order.
* `String.prototype.replace` with a string pattern (first occurrence) and
  the two regular expressions used by the launcher-data parser are
  implemented character by character over `List Char`.
* Fallible/asynchronous code is embedded with `Except`/`Option`: a
  rejected promise or a thrown exception is an `Except.error`, a resolved
  one `Except.ok`.  `showErrorNotification` calls are recorded as an
  `Option String` field of the result.
-/

deriving instance DecidableEq for Except

namespace Bannerlord

/-- Validation information attached to a cached module record (the
`invalid` field of a `ModuleData` value).  Both lists are optional so
that `util.getSafe(record, ['invalid', 'cyclic'], [])` can be modelled
faithfully: the default applies when any step of the path is absent. -/
structure Invalid where
  cyclic : Option (List String)
  missing : Option (List String)
  deriving Repr, DecidableEq

/-- Cached module record, as used by the source under verification: the
cache maps a module id to a record carrying the Vortex-side id
(`vortexId`) and the validation info written by the resolver. -/
structure ModuleData where
  vortexId : String
  invalid : Option Invalid
  deriving Repr, DecidableEq

/-- The module cache (`CACHE`): a JavaScript `Map` from module id to
record, embedded as an association list in insertion order. -/
abbrev Cache := List (String × ModuleData)

/-- One entry extracted from the launcher preferences document
(`ModuleData` on the TypeScript side when used for `LAUNCHER_DATA`):
an id and a selected/enabled flag. -/
structure LauncherModData where
  subModId : String
  enabled : Bool
  deriving Repr, DecidableEq

/-- One entry of the host's persisted load order (`ILoadOrderEntry`).
`locked` is optional because older entries may not carry the field;
JavaScript reads of an absent field see `undefined`. -/
structure LoadOrderEntry where
  pos : Int
  enabled : Bool
  locked : Option Bool
  deriving Repr, DecidableEq

/-- The persisted user load order: a plain object keyed by the
Vortex-side module id, embedded as an association list in insertion
order. -/
abbrev LoadOrder := List (String × LoadOrderEntry)

/-! ## String utilities shared by the embedded functions -/

/-- Splits `s` at the first occurrence of `pat`: returns the part before
the occurrence and the part after it, or `none` when `pat` does not
occur.  With an empty pattern it splits at the front, matching
JavaScript's `indexOf`/`replace` behaviour for the empty string. -/
def splitFirst (pat : List Char) : List Char → Option (List Char × List Char)
  | [] => if pat.isEmpty then some ([], []) else none
  | c :: rest =>
    if pat.isPrefixOf (c :: rest) then
      some ([], (c :: rest).drop pat.length)
    else
      match splitFirst pat rest with
      | some (pre, post) => some (c :: pre, post)
      | none => none

/-- JavaScript `s.replace(pat, rep)` with a plain-string pattern:
replaces the first occurrence only, returns `s` unchanged when the
pattern does not occur.  The replacement is inserted literally; the
`$`-escape sequences JavaScript interprets inside the replacement
string are not modelled (the fixed token contains no `$`, and module
ids with `$` are out of scope). -/
def replaceFirst (s pat rep : String) : String :=
  match splitFirst pat.data s.data with
  | some (pre, post) => String.mk (pre ++ rep.data ++ post)
  | none => s

/-- Node's `path.basename` restricted to forward-slash paths without a
trailing separator (the only shape the source produces): the component
after the last `/`. -/
def basename (p : String) : String :=
  String.mk (p.data.foldl (fun acc c => if c == '/' then [] else acc ++ [c]) [])

/-- ASCII lower-casing of one character (the fragment of JavaScript's
`toLowerCase` exercised by the source: tag names and manifest file
names). -/
def charLower (c : Char) : Char :=
  if 'A' ≤ c ∧ c ≤ 'Z' then Char.ofNat (c.toNat + 32) else c

/-- ASCII `toLowerCase`. -/
def asciiLower (s : String) : String :=
  String.mk (s.data.map charLower)

/-- Core of the global replacement of the tag-trimming regular
expression `<[^>]*>?`: when the flag is set we are inside a tag and drop
characters up to and including the next `>`; otherwise a `<` starts a
tag and every other character is kept. -/
def stripTagsAux : Bool → List Char → List Char
  | _, [] => []
  | true, c :: rest =>
    if c == '>' then stripTagsAux false rest else stripTagsAux true rest
  | false, c :: rest =>
    if c == '<' then stripTagsAux true rest else c :: stripTagsAux false rest

/-- JavaScript `s.replace(/<[^>]*>?/gm, '')`: removes every tag. -/
def stripTags (s : String) : String :=
  String.mk (stripTagsAux false s.data)

/-- JavaScript `s.replace(/[ \t\r\n]/gm, '')`: removes every blank,
tab, carriage return and newline. -/
def stripWhitespace (s : String) : String :=
  String.mk (s.data.filter fun c =>
    !(c == ' ' || c == '\t' || c == '\r' || c == '\n'))

/-- First match of the lazy tag regular expression
`openTag(.*?)closeTag` (as in `/\<Id\>(.*?)\<\/Id\>/`): the full matched
text (`match[0]`), i.e. the first opening tag, the shortest content up
to the next closing tag, and that closing tag.  A match attempt at a
later opening tag can only succeed when the attempt at the first one
does (any closing tag after the later one also lies after the first),
so taking the first opening tag is exactly the regular expression's
left-most match. -/
def matchTagBlock (openTag closeTag s : String) : Option String :=
  match splitFirst openTag.data s.data with
  | none => none
  | some (_, afterOpen) =>
    match splitFirst closeTag.data afterOpen with
    | none => none
    | some (content, _) => some (openTag ++ String.mk content ++ closeTag)

/-! ## Launcher preferences parser (`prepareForModding`'s
`createDataElement` and the reduce over `ModDatas` child nodes) -/

/-- Embedding of `createDataElement`.  The argument is the entry's
serialisation (`xmlNode.toString(...)`); the function first removes all
whitespace.  A nonempty string without a first `<Id>...</Id>` or
`<IsSelected>...</IsSelected>` match makes the source evaluate
`nodeString.match(regexp)[0]` with `match` returning `null`, which
throws a `TypeError`; that thrown exception is the `Except.error`
branch.  Only an empty serialisation returns the "no record" value
`Except.ok none`. -/
def createDataElement (serialized : String) : Except String (Option LauncherModData) :=
  let nodeString := stripWhitespace serialized
  if nodeString != "" then
    match matchTagBlock "<Id>" "</Id>" nodeString with
    | none => .error "TypeError: cannot read property 0 of null"
    | some idMatch =>
      match matchTagBlock "<IsSelected>" "</IsSelected>" nodeString with
      | none => .error "TypeError: cannot read property 0 of null"
      | some selMatch =>
        .ok (some { subModId := stripTags idMatch
                    enabled := stripTags (asciiLower selMatch) == "true" })
  else
    .ok none

/-- Embedding of the reduce in `prepareForModding` that folds
`createDataElement` over the per-module child nodes: `null` records are
skipped, records are pushed in order, and a thrown `TypeError`
propagates out of the reduce (to be caught by the surrounding handler
and rejected as `DataInvalid`). -/
def collectModDatas : List String → Except String (List LauncherModData)
  | [] => .ok []
  | n :: rest =>
    match createDataElement n with
    | .error e => .error e
    | .ok none => collectModDatas rest
    | .ok (some d) =>
      match collectModDatas rest with
      | .error e => .error e
      | .ok ds => .ok (d :: ds)

/-! ## Load-order item renderer (`customItemRenderer.ts`) -/

/-- Embedding of `onStatusChange`: the entry written back when the
enabled checkbox is toggled.  The source reads
`order[item.id]?.locked !== undefined ? order[item.id].locked : false`,
so an absent `locked` field is written back as the concrete value
`false`. -/
def onStatusChange (current : LoadOrderEntry) (checked : Bool) : LoadOrderEntry :=
  { pos := current.pos
    enabled := checked
    locked := some (match current.locked with | some b => b | none => false) }

/-- Embedding of `onLock`: the entry written back when the entry is
locked or unlocked from the context menu. -/
def onLock (current : LoadOrderEntry) (lock : Bool) : LoadOrderEntry :=
  { pos := current.pos
    enabled := current.enabled
    locked := some lock }

/-! ## Module cache primitives -/

/-- `CACHE.get(key)`: the value of the first (and, for a JavaScript
`Map`, only) pair carrying `key`; `undefined` becomes `none`. -/
def cacheGet (cache : Cache) (key : String) : Option ModuleData :=
  (cache.find? fun p => p.1 == key).map (·.2)

/-- `Array.from(CACHE.keys())`: the keys in insertion order. -/
def cacheKeys (cache : Cache) : List String :=
  cache.map (·.1)

/-- `CACHE.set(key, value)`: replaces the value of an existing key in
place, otherwise appends the pair. -/
def cacheSet (cache : Cache) (key : String) (value : ModuleData) : Cache :=
  if cache.any (fun p => p.1 == key) then
    cache.map fun p => if p.1 == key then (key, value) else p
  else
    cache ++ [(key, value)]

/-- The cache produced by `records.forEach((value, key) => CACHE.set(key, value))`
starting from a cleared cache. -/
def buildCache (records : List (String × ModuleData)) : Cache :=
  records.foldl (fun c p => cacheSet c p.1 p.2) []

/-- The lookup pattern `Array.from(CACHE.keys()).find(key => CACHE.get(key).vortexId === v)`
used both by `getValidationInfo` and by `refreshGameParams`.  For a key
enumerated from the map, `CACHE.get` can never be `undefined`; the
`none` branch of the match is that unreachable case (JavaScript would
throw there). -/
def findCacheKeyByVortexId (cache : Cache) (v : String) : Option String :=
  (cacheKeys cache).find? fun key =>
    match cacheGet cache key with
    | some md => md.vortexId == v
    | none => false

/-- `util.getSafe(record, ['invalid', 'cyclic'], [])`. -/
def getSafeCyclic : Option ModuleData → List String
  | none => []
  | some md =>
    match md.invalid with
    | none => []
    | some inv => inv.cyclic.getD []

/-- `util.getSafe(record, ['invalid', 'missing'], [])`. -/
def getSafeMissing : Option ModuleData → List String
  | none => []
  | some md =>
    match md.invalid with
    | none => []
    | some inv => inv.missing.getD []

/-- Result shape of `getValidationInfo`. -/
structure ValidationInfo where
  cyclic : List String
  missing : List String
  deriving Repr, DecidableEq

/-- Embedding of `getValidationInfo`: looks the record up by its
Vortex-side id and reads the two validation lists with `util.getSafe`,
defaulting to `[]`.  `CACHE.get(subModId)` with `subModId === undefined`
is `undefined`, hence the `Option.bind`. -/
def getValidationInfo (cache : Cache) (modVortexId : String) : ValidationInfo :=
  let subModId := findCacheKeyByVortexId cache modVortexId
  let record := subModId.bind (cacheGet cache)
  { cyclic := getSafeCyclic record
    missing := getSafeMissing record }

/-! ## Load-order object primitives and the stable sort -/

/-- `loadOrder[key]`: first-match lookup in the association list. -/
def loGet (lo : LoadOrder) (key : String) : Option LoadOrderEntry :=
  (lo.find? fun p => p.1 == key).map (·.2)

/-- `loadOrder[key].enabled` as evaluated on a key enumerated by
`Object.keys` (the lookup cannot miss there; the `none` branch is the
unreachable `undefined` case). -/
def loEnabled (lo : LoadOrder) (key : String) : Bool :=
  match loGet lo key with
  | some e => e.enabled
  | none => false

/-- `loadOrder[key].pos` on a key enumerated by `Object.keys`; the `0`
default is the unreachable `undefined` case. -/
def loPos (lo : LoadOrder) (key : String) : Int :=
  match loGet lo key with
  | some e => e.pos
  | none => 0

/-- Inserts `a` after every element whose key is less than or equal to
its own — the insertion step of a stable ascending sort. -/
def orderedInsert (key : α → Int) (a : α) : List α → List α
  | [] => [a]
  | b :: t =>
    if key b ≤ key a then b :: orderedInsert key a t else a :: b :: t

/-- Stable ascending sort by an integer key.  JavaScript's
`Array.prototype.sort` with the comparator
`(lhs, rhs) => key(lhs) - key(rhs)` is required to be stable and to
order by the comparator, and a stable comparator sort has exactly one
possible output, so this insertion sort is that output. -/
def sortByKey (key : α → Int) (l : List α) : List α :=
  l.foldl (fun acc a => orderedInsert key a acc) []

/-! ## `refreshGameParams` -/

/-- The `enabled` list computed by `refreshGameParams`: with a truthy,
nonempty load order, its keys filtered to enabled entries, sorted by
position and mapped through the cache by `vortexId`; otherwise the
singleplayer launcher entries filtered to enabled, in declared order.
The reduce guards the push with JavaScript truthiness (`if (!!entry)`),
which is false both for `undefined` (no matching cache record) and for
the empty string — so a matched cache id `""` is also skipped. -/
def enabledModIds (cache : Cache) (loadOrder : Option LoadOrder)
    (singlePlayerSubMods : List LauncherModData) : List String :=
  match loadOrder with
  | some lo =>
    if lo.length > 0 then
      (sortByKey (loPos lo) ((lo.map (·.1)).filter (loEnabled lo))).foldl
        (fun accum key =>
          match findCacheKeyByVortexId cache key with
          | some entry => if entry != "" then accum ++ [entry] else accum
          | none => accum) []
    else
      (singlePlayerSubMods.filter (·.enabled)).map (·.subModId)
  | none =>
    (singlePlayerSubMods.filter (·.enabled)).map (·.subModId)

/-- The `parameters` array built by `refreshGameParams` from the two
`PARAMS_TEMPLATE` fragments and dispatched to the host together with the
executable path. -/
def refreshGameParams (cache : Cache) (loadOrder : Option LoadOrder)
    (singlePlayerSubMods : List LauncherModData)
    (template0 template1 : String) : List String :=
  let enabled := enabledModIds cache loadOrder singlePlayerSubMods
  [replaceFirst template0 "{{gameMode}}" "singleplayer",
   replaceFirst template1 "{{subModIds}}" (String.join (enabled.map fun key => "*" ++ key))]

/-! ## `getDeployedSubModPaths` -/

/-- Outcome of the awaited `walkAsync(modulePath)` call: the file list,
a `util.UserCanceled` rejection, or a file-system error carrying
`code`, `path` and `message`. -/
inductive WalkOutcome where
  | ok (files : List String)
  | userCanceled
  | fsError (code : String) (path : String) (message : String)
  deriving Repr, DecidableEq

/-- Errors a scan can reject with.  `getDeployedSubModPaths` itself only
rejects with `util.ProcessCanceled`; `other` stands for any different
rejection reaching `refreshCacheOnEvent`'s catch (for instance from
`getDeployedModData`). -/
inductive ScanError where
  | processCanceled (msg : String)
  | other (msg : String)
  deriving Repr, DecidableEq

/-- Result of a scan: the error notification shown to the user, if any,
and the promise outcome. -/
structure ScanResult where
  notification : Option String
  result : Except ScanError (List String)
  deriving Repr

/-- Whether a scan's promise was rejected. -/
def isRejected (r : ScanResult) : Bool :=
  match r.result with
  | .error _ => true
  | .ok _ => false

/-- Embedding of `getDeployedSubModPaths`.  `discoveryPath` is the
discovered game root (`discovery?.path`), `modules` the `MODULES`
directory-name constant, `officialModules` the `OFFICIAL_MODULES` set as
a list and `submodFile` the lower-case `SUBMOD_FILE` constant; `walk` is
the outcome the directory walk would produce if reached.  With no
discovery path the function rejects before consulting the walk at all. -/
def getDeployedSubModPaths (discoveryPath : Option String) (modules : String)
    (officialModules : List String) (submodFile : String)
    (walk : WalkOutcome) : ScanResult :=
  match discoveryPath with
  | none => { notification := none
              result := .error (.processCanceled "game discovery is incomplete") }
  | some _ =>
    match walk with
    | .ok files =>
      { notification := none
        result := .ok (files.filter fun file => asciiLower (basename file) == submodFile) }
    | .userCanceled =>
      { notification := none, result := .ok [] }
    | .fsError code errPath msg =>
      let isMissingOfficialModules :=
        code == "ENOENT" && (([] ++ [modules] ++ officialModules).contains (basename errPath))
      let errorMsg :=
        if isMissingOfficialModules then
          "Game files are missing - please re-install the game"
        else msg
      { notification := some errorMsg, result := .ok [] }

/-! ## `refreshCacheOnEvent` -/

/-- A Vortex profile, restricted to the two fields the guard reads. -/
structure Profile where
  id : String
  gameId : String
  deriving Repr, DecidableEq

/-- Observable outcome of one `refreshCacheOnEvent` call: the cache
contents after the call, the promise outcome, the notification shown (if
any) and the parameters dispatched by `refreshGameParams` (`none` when
that call is never reached). -/
structure RefreshOutcome where
  cache : Cache
  promise : Except String Unit
  notification : Option String
  params : Option (List String)
  deriving Repr

/-- Embedding of `refreshCacheOnEvent`.  `cache₀` is the cache before
the call — the source clears the global `CACHE` unconditionally on
entry, so `cache₀` never flows into the result.  `scan` is the outcome
`getDeployedSubModPaths` would produce and `modData` the record list
`getDeployedModData` would produce for it; neither is consulted on the
early-return paths.  `loadOrder` is the persisted order read from the
host state (`util.getSafe` with an `{}` default, hence not optional)
and `singlePlayerSubMods`, `template0`, `template1` feed the final
`refreshGameParams` call. -/
def refreshCacheOnEvent (gameId : String) (cache₀ : Cache)
    (profileId : Option String) (activeProfile deployProfile : Option Profile)
    (scan : ScanResult) (modData : List (String × ModuleData))
    (loadOrder : LoadOrder) (singlePlayerSubMods : List LauncherModData)
    (template0 template1 : String) : RefreshOutcome :=
  -- CACHE.clear() happens here, before every guard: cache₀ is dropped.
  match profileId with
  | none => { cache := [], promise := .ok (), notification := none, params := none }
  | some _ =>
    if (match activeProfile, deployProfile with
        | some active, some deploy => deploy.id != active.id
        | _, _ => false) then
      { cache := [], promise := .ok (), notification := none, params := none }
    else if activeProfile.map (·.gameId) != some gameId then
      { cache := [], promise := .ok (), notification := none, params := none }
    else
      match scan.result with
      | .error (.processCanceled _) =>
        { cache := [], promise := .ok (), notification := scan.notification, params := none }
      | .error (.other msg) =>
        { cache := [], promise := .error msg, notification := scan.notification, params := none }
      | .ok _ =>
        let cache := buildCache modData
        { cache := cache
          promise := .ok ()
          notification := scan.notification
          params := some (refreshGameParams cache (some loadOrder) singlePlayerSubMods template0 template1) }

/-- The cache states another task can observe while one rebuild runs
(both in `refreshCacheOnEvent`'s try block and in the final stage of
`prepareForModding`): the code clears the cache, awaits
`getDeployedSubModPaths`, awaits `getDeployedModData`, and only then
repopulates the map synchronously — no await separates the `set` calls,
and the `tSort` validation pass that follows runs in the same
uninterruptible block.  Other tasks run exactly at the two awaits, where
the cache is empty; a scan failure (`scanned = none`) leaves it empty.
The pre-call cache is not among the states: the clear is synchronous
with the call. -/
def rebuildObservableStates (scanned : Option (List (String × ModuleData))) : List Cache :=
  match scanned with
  | some records => [[], [], buildCache records]
  | none => [[], []]

/-! ## Spec-side formulations (used to state refinement claims; these
follow the specification's wording, not the source) -/

/-- Spec formulation: the record whose `externalId` (`vortexId`)
matches. -/
def recordByVortexId (cache : Cache) (v : String) : Option ModuleData :=
  (cache.find? fun p => p.2.vortexId == v).map (·.2)

/-- Spec formulation: the cache id of the record carrying the given
`externalId` (`vortexId`). -/
def cacheIdForVortexId (cache : Cache) (v : String) : Option String :=
  (cache.find? fun p => p.2.vortexId == v).map (·.1)

/-- Spec formulation of reconciliation with a user load order, as the
claim words it: filter the entries to `enabled == true`, sort them by
recorded position ascending, and map each entry's `externalId` to a
cache id, silently dropping exactly the entries with no matching cache
record.  This keeps a matched cache id that happens to be the empty
string, which the program's truthiness guard drops — retained verbatim
to exhibit that divergence. -/
def reconcileWithUserOrder (cache : Cache) (lo : LoadOrder) : List String :=
  (sortByKey (fun p => p.2.pos) (lo.filter fun p => p.2.enabled)).filterMap
    fun p => cacheIdForVortexId cache p.1

/-- Amended spec formulation of reconciliation: as
`reconcileWithUserOrder`, but an entry is also dropped when its matched
cache id is the empty string (the falsy value the reduce's `!!entry`
guard rejects alongside `undefined`). -/
def reconcileWithUserOrderTruthy (cache : Cache) (lo : LoadOrder) : List String :=
  (sortByKey (fun p => p.2.pos) (lo.filter fun p => p.2.enabled)).filterMap
    fun p => (cacheIdForVortexId cache p.1).filter fun cid => cid != ""

/-! ## Claim theorems -/

/-- C10 (counterexample): the renderer's checkbox handler does not in
general write back the stored entry with only `enabled` changed — on an
entry whose `locked` field is absent, the written entry carries the
concrete value `locked = false` instead of leaving the field absent
(absent and `false` are distinguished by the renderer itself, which
shows the Lock context-menu action only when `locked === false`). -/
theorem claim_C10_counterexample :
    onStatusChange ⟨0, true, none⟩ false ≠ (⟨0, false, none⟩ : LoadOrderEntry) := by
  decide

/-- C10 (amended): the entry written back on a user action changes only
the targeted field, up to materialising an absent `locked` flag:
toggling the checkbox preserves the position exactly and the locked
flag's boolean reading (writing `false` when the flag was absent), and
locking/unlocking preserves the position and enabled flag exactly. -/
theorem claim_C10_renderer_minimal_delta (current : LoadOrderEntry) (checked lock : Bool) :
    (onStatusChange current checked).pos = current.pos ∧
    (onStatusChange current checked).enabled = checked ∧
    (onStatusChange current checked).locked = some (current.locked.getD false) ∧
    (onStatusChange current checked).locked.getD false = current.locked.getD false ∧
    (onLock current lock).pos = current.pos ∧
    (onLock current lock).enabled = current.enabled ∧
    (onLock current lock).locked = some lock := by
  refine ⟨rfl, rfl, ?_, ?_, rfl, rfl, rfl⟩ <;>
    cases h : current.locked <;> simp [onStatusChange, h]

/-- C8: on a nonempty per-module entry in which the `Id` element cannot
be located, `createDataElement` does not return the "no record" value:
`nodeString.match(idRegexp)` is `null` and the `[0]` access throws a
`TypeError`, which aborts the whole reduce, so the remaining entries are
not extracted either.  The "no record" value is only produced for an
entry whose serialisation is empty, in which case the caller does skip
it and extracts the rest. -/
theorem claim_C8_parser_throws_on_missing_fields :
    createDataElement "<ModData><Name>Foo</Name></ModData>" =
      .error "TypeError: cannot read property 0 of null" ∧
    createDataElement "" = .ok none ∧
    collectModDatas ["<ModData><Name>Foo</Name></ModData>",
        "<Id>Native</Id><IsSelected>true</IsSelected>"] =
      .error "TypeError: cannot read property 0 of null" ∧
    collectModDatas ["", "<Id>Native</Id><IsSelected>true</IsSelected>"] =
      .ok [{ subModId := "Native", enabled := true }] := by
  refine ⟨rfl, rfl, rfl, ?_⟩
  decide

/-- C5: with no user load order (the mapping absent or empty), the
final id sequence is the launcher preferences' singleplayer entries
filtered to `enabled == true` in declared order; in particular the
preferences `[{subModId: X, enabled: true}, {subModId: Y, enabled: false}]`
yield exactly `["X"]`, whatever the cache holds. -/
theorem claim_C5_launcher_fallback (cache : Cache) (sp : List LauncherModData) :
    enabledModIds cache none sp = (sp.filter (·.enabled)).map (·.subModId) ∧
    enabledModIds cache (some []) sp = (sp.filter (·.enabled)).map (·.subModId) ∧
    enabledModIds cache none [⟨"X", true⟩, ⟨"Y", false⟩] = ["X"] ∧
    enabledModIds cache (some []) [⟨"X", true⟩, ⟨"Y", false⟩] = ["X"] :=
  ⟨rfl, rfl, rfl, rfl⟩

/-- C7 (counterexample): when the walk fails with `ENOENT` on a path
whose base name is the `Modules` directory, the scan does not fail:
after showing the "re-install the game" notification it resolves with an
empty module list, so the refresh pass continues (with an empty cache)
rather than being aborted. -/
theorem claim_C7_counterexample :
    isRejected (getDeployedSubModPaths (some "/game") "Modules" ["Native"] "submodule.xml"
      (.fsError "ENOENT" "/game/Modules" "ENOENT: no such file or directory")) = false ∧
    (getDeployedSubModPaths (some "/game") "Modules" ["Native"] "submodule.xml"
      (.fsError "ENOENT" "/game/Modules" "ENOENT: no such file or directory")).notification =
      some "Game files are missing - please re-install the game" := by
  refine ⟨rfl, ?_⟩
  decide

/-- C7 (amended): a walk failure whose `code` is `ENOENT` and whose
failing path's base name matches the `Modules` directory or a known
official module directory name is surfaced as the user-visible
"re-install the game" notification, while any other walk failure
surfaces its own underlying message; in both cases the scan then
resolves with an empty module list instead of rejecting. -/
theorem claim_C7_official_files_missing (root modules submodFile code errPath msg : String)
    (officialModules : List String) :
    getDeployedSubModPaths (some root) modules officialModules submodFile
        (.fsError code errPath msg) =
      { notification := some (if code = "ENOENT" ∧ basename errPath ∈ modules :: officialModules
            then "Game files are missing - please re-install the game"
            else msg)
        result := .ok [] } := by
  have hiff : (code == "ENOENT" && (modules :: officialModules).contains (basename errPath)) = true ↔
      code = "ENOENT" ∧ basename errPath ∈ modules :: officialModules := by
    simp [List.contains]
  simp only [getDeployedSubModPaths, List.nil_append, List.singleton_append]
  rw [ScanResult.mk.injEq]
  refine ⟨?_, rfl⟩
  rw [Option.some.injEq]
  by_cases h : code = "ENOENT" ∧ basename errPath ∈ modules :: officialModules
  · rw [if_pos (hiff.mpr h), if_pos h]
  · rw [if_neg (fun hb => h (hiff.mp hb)), if_neg h]

/-- C3 (counterexample): a refresh event for a profile other than the
active one does not leave the module cache unchanged — the source clears
the global cache unconditionally before the profile guard, so a
previously populated cache comes out empty. -/
theorem claim_C3_counterexample :
    (refreshCacheOnEvent "mountandblade2bannerlord" [("A", ⟨"A", none⟩)] (some "p2")
        (some ⟨"p1", "mountandblade2bannerlord"⟩) (some ⟨"p2", "mountandblade2bannerlord"⟩)
        { notification := none, result := .ok [] } [("B", ⟨"B", none⟩)]
        [] [] "t0" "t1").cache ≠ [("A", ⟨"A", none⟩)] := by
  decide

/-- C3 (amended): a refresh event whose profile differs from the active
one, or whose active profile belongs to a different game (or is absent),
is discarded before any scan: the call resolves successfully, shows no
notification, never reaches the parameter refresh, and never repopulates
the cache from that event's scan — but the cache has already been
cleared on entry, so it is left empty rather than unchanged. -/
theorem claim_C3_foreign_profile_discarded (gameId : String) (cache₀ : Cache)
    (pid : String) (active deploy : Option Profile) (scan : ScanResult)
    (modData : List (String × ModuleData)) (lo : LoadOrder)
    (sp : List LauncherModData) (t0 t1 : String)
    (h : (∃ a d, active = some a ∧ deploy = some d ∧ d.id ≠ a.id) ∨
         active.map (·.gameId) ≠ some gameId) :
    refreshCacheOnEvent gameId cache₀ (some pid) active deploy scan modData lo sp t0 t1 =
      { cache := [], promise := .ok (), notification := none, params := none } := by
  rcases h with ⟨a, d, ha, hd, hne⟩ | hg
  · subst ha; subst hd
    simp [refreshCacheOnEvent, hne]
  · cases active with
    | none =>
      cases deploy with
      | none => simp [refreshCacheOnEvent]
      | some d => simp [refreshCacheOnEvent]
    | some a =>
      have hga : a.gameId ≠ gameId := by simpa using hg
      cases deploy with
      | none => simp [refreshCacheOnEvent, hga]
      | some d =>
        cases hdi : (d.id != a.id) with
        | true => simp [refreshCacheOnEvent, hdi]
        | false => simp [refreshCacheOnEvent, hdi, hga]

/-- C3 (witness). -/
theorem claim_C3_foreign_profile_discarded_witness :
    refreshCacheOnEvent "mountandblade2bannerlord" [("A", ⟨"A", none⟩)] (some "p2")
        (some ⟨"p1", "mountandblade2bannerlord"⟩) (some ⟨"p2", "mountandblade2bannerlord"⟩)
        { notification := none, result := .ok [] } [("B", ⟨"B", none⟩)] [] [] "t0" "t1" =
      { cache := [], promise := .ok (), notification := none, params := none } :=
  claim_C3_foreign_profile_discarded "mountandblade2bannerlord" [("A", ⟨"A", none⟩)]
    "p2" (some ⟨"p1", "mountandblade2bannerlord"⟩) (some ⟨"p2", "mountandblade2bannerlord"⟩)
    { notification := none, result := .ok [] } [("B", ⟨"B", none⟩)] [] [] "t0" "t1"
    (Or.inl ⟨⟨"p1", "mountandblade2bannerlord"⟩, ⟨"p2", "mountandblade2bannerlord"⟩,
      rfl, rfl, by decide⟩)

/-- C4 (counterexample): the rebuild is not atomic in the
build-then-swap sense — while the scan is in flight another task can
observe the cleared cache, a state that is neither the pre-refresh cache
nor the completed new one. -/
theorem claim_C4_counterexample :
    ¬ ∀ s ∈ rebuildObservableStates (some [("New", ⟨"New", none⟩)]),
        s = [("Old", ⟨"Old", none⟩)] ∨ s = buildCache [("New", ⟨"New", none⟩)] := by
  decide

/-- C4 (amended): `clear()` always precedes repopulation, and every
observable cache state during a rebuild is either the cleared (empty)
cache or the cache built entirely from the current scan: the
repopulation loop is synchronous, so no reader ever observes a partial
repopulation or a cache mixing entries from two different scans — but
the empty intermediate state is observable while the scan's awaited
steps are in flight, so the rebuild is not atomic build-then-swap. -/
theorem claim_C4_rebuild_states (scanned : Option (List (String × ModuleData)))
    (s : Cache) (h : s ∈ rebuildObservableStates scanned) :
    s = [] ∨ ∃ records, scanned = some records ∧ s = buildCache records := by
  cases scanned with
  | none =>
    simp only [rebuildObservableStates, List.mem_cons, List.not_mem_nil, or_false] at h
    rcases h with rfl | rfl
    · exact Or.inl rfl
    · exact Or.inl rfl
  | some records =>
    simp only [rebuildObservableStates, List.mem_cons, List.not_mem_nil, or_false] at h
    rcases h with rfl | rfl | rfl
    · exact Or.inl rfl
    · exact Or.inl rfl
    · exact Or.inr ⟨records, rfl, rfl⟩

/-- C4 (witness). -/
theorem claim_C4_rebuild_states_witness :
    buildCache [("New", ⟨"New", none⟩)] ∈ rebuildObservableStates (some [("New", ⟨"New", none⟩)]) ∧
    (buildCache [("New", ⟨"New", none⟩)] = [] ∨
      ∃ records, (some [("New", ⟨"New", none⟩)] : Option (List (String × ModuleData))) = some records ∧
        buildCache [("New", ⟨"New", none⟩)] = buildCache records) :=
  ⟨by decide, claim_C4_rebuild_states (some [("New", ⟨"New", none⟩)])
    (buildCache [("New", ⟨"New", none⟩)]) (by decide)⟩

/-- C9: with the game root unknown (`discovery?.path` undefined) the
scan rejects with `ProcessCanceled` — the `DiscoveryIncomplete`
condition — uniformly in the walk outcome, i.e. before any directory
walk and without any notification; and `refreshCacheOnEvent`, hitting
that rejection in its catch, resolves successfully with no notification
and no parameter refresh, so the condition is never surfaced as a
user-visible error. -/
theorem claim_C9_discovery_incomplete (modules submodFile gameId : String)
    (officialModules : List String) (walk : WalkOutcome) (cache₀ : Cache)
    (pid : String) (a d : Profile) (modData : List (String × ModuleData))
    (lo : LoadOrder) (sp : List LauncherModData) (t0 t1 : String)
    (hid : d.id = a.id) (hg : a.gameId = gameId) :
    getDeployedSubModPaths none modules officialModules submodFile walk =
      { notification := none
        result := .error (.processCanceled "game discovery is incomplete") } ∧
    refreshCacheOnEvent gameId cache₀ (some pid) (some a) (some d)
        (getDeployedSubModPaths none modules officialModules submodFile walk)
        modData lo sp t0 t1 =
      { cache := [], promise := .ok (), notification := none, params := none } := by
  refine ⟨rfl, ?_⟩
  simp only [refreshCacheOnEvent, getDeployedSubModPaths]
  rw [if_neg, if_neg]
  · simp [hg]
  · simp [hid]

/-! ## Supporting lemmas for the reconciliation and validation claims -/

/-- Replacing the predicate of `find?` by one that agrees on the list's
members does not change the result. -/
theorem find?_congr_mem (p q : α → Bool) (l : List α) (h : ∀ a ∈ l, p a = q a) :
    l.find? p = l.find? q := by
  induction l with
  | nil => rfl
  | cons a t ih =>
    have ha : p a = q a := h a (by simp)
    cases hq : q a with
    | true =>
      rw [List.find?_cons_of_pos t (by rw [ha, hq]), List.find?_cons_of_pos t hq]
    | false =>
      rw [List.find?_cons_of_neg t (by simp [ha, hq]), List.find?_cons_of_neg t (by simp [hq]),
        ih fun b hb => h b (by simp [hb])]

/-- First-match key lookup skips a pair with a different key. -/
theorem assoc_find?_cons_ne {β : Type} (q : String × β) (l : List (String × β)) (k : String)
    (h : q.1 ≠ k) :
    ((q :: l).find? fun p => p.1 == k) = l.find? fun p => p.1 == k :=
  List.find?_cons_of_neg l (by simp [h])

/-- In an association list with pairwise-distinct keys, first-match
lookup of a member's key returns that member's value. -/
theorem assoc_get_self {β : Type} (l : List (String × β)) (h : (l.map (·.1)).Nodup)
    (p : String × β) (hp : p ∈ l) :
    (l.find? fun q => q.1 == p.1).map (·.2) = some p.2 := by
  induction l with
  | nil => cases hp
  | cons q t ih =>
    rcases List.mem_cons.mp hp with rfl | hpt
    · rw [List.find?_cons_of_pos t (by simp)]
      rfl
    · have hq : q.1 ≠ p.1 := by
        intro he
        apply (List.nodup_cons.mp h).1
        show q.1 ∈ t.map (·.1)
        rw [he]
        exact List.mem_map_of_mem (·.1) hpt
      rw [assoc_find?_cons_ne q t p.1 hq]
      exact ih (List.nodup_cons.mp h).2 hpt

/-- With pairwise-distinct cache keys, the source's key-then-get lookup
by `vortexId` finds exactly the first record pair carrying that
`vortexId`. -/
theorem findCacheKey_eq_pairs (cache : Cache) (hnd : (cacheKeys cache).Nodup) (v : String) :
    findCacheKeyByVortexId cache v = (cache.find? fun p => p.2.vortexId == v).map (·.1) := by
  induction cache with
  | nil => rfl
  | cons q rest ih =>
    obtain ⟨k, md⟩ := q
    simp only [cacheKeys, List.map_cons] at hnd
    have hk : k ∉ rest.map (·.1) := (List.nodup_cons.mp hnd).1
    have hrest : (rest.map fun p => p.1).Nodup := (List.nodup_cons.mp hnd).2
    have hget : cacheGet ((k, md) :: rest) k = some md := by
      simp [cacheGet]
    have hcong : ∀ key ∈ rest.map (·.1),
        (match cacheGet ((k, md) :: rest) key with
          | some m => m.vortexId == v
          | none => false) =
        (match cacheGet rest key with
          | some m => m.vortexId == v
          | none => false) := by
      intro key hkey
      have hne : ((k, md) : String × ModuleData).1 ≠ key := by
        intro he
        apply hk
        show k ∈ rest.map (·.1)
        rw [show k = key from he]
        exact hkey
      rw [show cacheGet ((k, md) :: rest) key = cacheGet rest key from by
        simp only [cacheGet]
        rw [assoc_find?_cons_ne _ _ _ hne]]
    simp only [findCacheKeyByVortexId, cacheKeys, List.map_cons]
    cases hv : (md.vortexId == v) with
    | true =>
      rw [List.find?_cons_of_pos _ (by rw [hget]; exact hv),
        List.find?_cons_of_pos _ (by exact hv)]
      rfl
    | false =>
      rw [List.find?_cons_of_neg _ (by rw [hget]; simp [hv]),
        List.find?_cons_of_neg _ (by simp [hv]),
        find?_congr_mem _ _ _ hcong]
      exact ih hrest

/-- With pairwise-distinct cache keys, looking the found key back up in
the cache yields the first record carrying the `vortexId`. -/
theorem findCacheKey_get (cache : Cache) (hnd : (cacheKeys cache).Nodup) (v : String) :
    (findCacheKeyByVortexId cache v).bind (cacheGet cache) = recordByVortexId cache v := by
  rw [findCacheKey_eq_pairs cache hnd v]
  cases hf : cache.find? fun p => p.2.vortexId == v with
  | none => simp [recordByVortexId, hf]
  | some p =>
    simp only [Option.map_some', Option.some_bind, recordByVortexId, hf]
    exact assoc_get_self cache hnd p (List.mem_of_find?_eq_some hf)

/-- With pairwise-distinct load-order keys, filtering the keys through
the indexed `enabled` reads equals taking the keys of the
entry-filtered list. -/
theorem keys_filter_enabled (lo : LoadOrder) (hnd : (lo.map (·.1)).Nodup) :
    (lo.map (·.1)).filter (loEnabled lo) = (lo.filter fun p => p.2.enabled).map (·.1) := by
  induction lo with
  | nil => rfl
  | cons p rest ih =>
    simp only [List.map_cons] at hnd
    have hk : p.1 ∉ rest.map (·.1) := (List.nodup_cons.mp hnd).1
    have hrest : (rest.map fun q => q.1).Nodup := (List.nodup_cons.mp hnd).2
    have hhead : loEnabled (p :: rest) p.1 = p.2.enabled := by
      simp [loEnabled, loGet]
    have htail : (rest.map (·.1)).filter (loEnabled (p :: rest)) =
        (rest.map (·.1)).filter (loEnabled rest) := by
      apply List.filter_congr
      intro key hkey
      have hne : p.1 ≠ key := fun he => hk (he ▸ hkey)
      simp only [loEnabled]
      rw [show loGet (p :: rest) key = loGet rest key from by
        simp only [loGet]
        rw [assoc_find?_cons_ne _ _ _ hne]]
    simp only [List.map_cons, List.filter_cons, hhead, htail, ih hrest]
    cases hpe : p.2.enabled <;> simp [hpe]

/-- With pairwise-distinct load-order keys, the indexed position read
of a member's key is that member's position. -/
theorem loPos_agrees (lo : LoadOrder) (hnd : (lo.map (·.1)).Nodup)
    (p : String × LoadOrderEntry) (hp : p ∈ lo) : loPos lo p.1 = p.2.pos := by
  have hg : loGet lo p.1 = some p.2 := assoc_get_self lo hnd p hp
  simp only [loPos, hg]

/-- Membership in an `orderedInsert` result. -/
theorem mem_orderedInsert (key : α → Int) (a b : α) (l : List α) :
    b ∈ orderedInsert key a l ↔ b = a ∨ b ∈ l := by
  induction l with
  | nil => simp [orderedInsert]
  | cons c t ih =>
    simp only [orderedInsert]
    split <;> simp only [List.mem_cons, ih] <;> tauto

/-- `orderedInsert` commutes with `map` when the two keys agree on the
mapped elements. -/
theorem orderedInsert_map (key1 : β → Int) (key2 : α → Int) (f : α → β) (a : α)
    (l : List α) (ha : key1 (f a) = key2 a) (hl : ∀ b ∈ l, key1 (f b) = key2 b) :
    orderedInsert key1 (f a) (l.map f) = (orderedInsert key2 a l).map f := by
  induction l with
  | nil => rfl
  | cons c t ih =>
    have hc : key1 (f c) = key2 c := hl c (by simp)
    simp only [List.map_cons, orderedInsert, hc, ha]
    split
    · rw [ih fun b hb => hl b (by simp [hb])]
      simp
    · simp

/-- The insertion-sort fold commutes with `map` when the two keys agree
on the folded elements and the accumulator. -/
theorem foldl_orderedInsert_map (key1 : β → Int) (key2 : α → Int) (f : α → β) :
    ∀ (l acc : List α), (∀ b ∈ l, key1 (f b) = key2 b) → (∀ b ∈ acc, key1 (f b) = key2 b) →
      (l.map f).foldl (fun acc a => orderedInsert key1 a acc) (acc.map f) =
        (l.foldl (fun acc a => orderedInsert key2 a acc) acc).map f := by
  intro l
  induction l with
  | nil => intro acc _ _; rfl
  | cons c t ih =>
    intro acc hl hacc
    simp only [List.map_cons, List.foldl_cons]
    rw [orderedInsert_map key1 key2 f c acc (hl c (by simp)) hacc]
    refine ih (orderedInsert key2 c acc) (fun b hb => hl b (by simp [hb])) ?_
    intro b hb
    rcases (mem_orderedInsert key2 c b acc).mp hb with rfl | hb2
    · exact hl b (by simp)
    · exact hacc b hb2

/-- `sortByKey` commutes with `map` when the two keys agree on the
list's elements. -/
theorem sortByKey_map (key1 : β → Int) (key2 : α → Int) (f : α → β) (l : List α)
    (h : ∀ b ∈ l, key1 (f b) = key2 b) :
    sortByKey key1 (l.map f) = (sortByKey key2 l).map f := by
  simpa [sortByKey] using foldl_orderedInsert_map key1 key2 f l [] h (by simp)

/-- The accumulating push of the source's reduce (stated for any fold
body that appends the lookup's result when it hits and keeps the
accumulator when it misses) is a `filterMap`. -/
theorem foldl_push_filterMap (g : σ → Option τ) (F : List τ → σ → List τ)
    (hsome : ∀ acc k e, g k = some e → F acc k = acc ++ [e])
    (hnone : ∀ acc k, g k = none → F acc k = acc) :
    ∀ (l : List σ) (acc : List τ), l.foldl F acc = acc ++ l.filterMap g := by
  intro l
  induction l with
  | nil => intro acc; simp
  | cons a t ih =>
    intro acc
    simp only [List.foldl_cons, List.filterMap_cons]
    cases hg : g a with
    | none => rw [hnone acc a hg, ih]
    | some e =>
      rw [hsome acc a e hg, ih]
      simp

/-- Concatenating the starred ids with `join` is the same as folding
the star prefix over the sequence from the right. -/
theorem join_map_star (ids : List String) :
    String.join (ids.map fun key => "*" ++ key) =
      ids.foldr (fun id acc => "*" ++ id ++ acc) "" := by
  have haux : ∀ (l : List String) (s : String),
      l.foldl (fun r t => r ++ t) s = s ++ l.foldr (fun t acc => t ++ acc) "" := by
    intro l
    induction l with
    | nil => intro s; simp
    | cons a t ih =>
      intro s
      simp only [List.foldl_cons, List.foldr_cons, ih (s ++ a)]
      rw [String.append_assoc]
  have : ∀ (l : List String), String.join l = l.foldr (fun t acc => t ++ acc) "" := by
    intro l
    rw [String.join, haux l ""]
    simp
  rw [this]
  induction ids with
  | nil => rfl
  | cons a t ih =>
    simp only [List.map_cons, List.foldr_cons, ih, String.append_assoc]

/-- C6: for the computed sequence of enabled ids, the emitted launch
parameters are exactly the two template fragments with the first
occurrence of `{{gameMode}}` replaced by the fixed token `singleplayer`
and the first occurrence of `{{subModIds}}` replaced by the
concatenation, with no separator, of the ids each prefixed by the
marker `*` — the empty string for an empty sequence. -/
theorem claim_C6_launch_parameter_template (cache : Cache) (loadOrder : Option LoadOrder)
    (sp : List LauncherModData) (template0 template1 : String) :
    refreshGameParams cache loadOrder sp template0 template1 =
      [replaceFirst template0 "{{gameMode}}" "singleplayer",
       replaceFirst template1 "{{subModIds}}"
         ((enabledModIds cache loadOrder sp).foldr (fun id acc => "*" ++ id ++ acc) "")] := by
  simp only [refreshGameParams, join_map_star]

/-- C2: the validation query is total — for every queried `externalId`
it returns the `invalid.cyclic` and `invalid.missing` lists of the
record whose `vortexId` matches, and the empty lists whenever that
record, its `invalid` field, or the requested list is absent.  The
key-distinctness hypothesis is the `Map` invariant of the cache. -/
theorem claim_C2_validation_query_total (cache : Cache) (hnd : (cacheKeys cache).Nodup)
    (v : String) :
    getValidationInfo cache v =
      { cyclic := getSafeCyclic (recordByVortexId cache v)
        missing := getSafeMissing (recordByVortexId cache v) } := by
  simp only [getValidationInfo]
  rw [findCacheKey_get cache hnd v]

/-- C2 (witness): a hit returns the record's lists (with `missing`
absent and defaulted), and a miss returns the empty defaults. -/
theorem claim_C2_validation_query_total_witness :
    (cacheKeys [("A", ⟨"vA", some ⟨some ["c"], none⟩⟩), ("B", ⟨"vB", none⟩)]).Nodup ∧
    getValidationInfo [("A", ⟨"vA", some ⟨some ["c"], none⟩⟩), ("B", ⟨"vB", none⟩)] "vA" =
      { cyclic := getSafeCyclic
          (recordByVortexId [("A", ⟨"vA", some ⟨some ["c"], none⟩⟩), ("B", ⟨"vB", none⟩)] "vA")
        missing := getSafeMissing
          (recordByVortexId [("A", ⟨"vA", some ⟨some ["c"], none⟩⟩), ("B", ⟨"vB", none⟩)] "vA") } :=
  ⟨by decide,
   claim_C2_validation_query_total [("A", ⟨"vA", some ⟨some ["c"], none⟩⟩), ("B", ⟨"vB", none⟩)]
     (by decide) "vA"⟩

/-- C1 (counterexample): the claim's pipeline — map each enabled
entry's `externalId` to the cache id of the record carrying that
`vortexId`, dropping only entries with no matching record — disagrees
with the program on a cached record whose primary id is the empty
string: its id is found for the enabled entry, but the reduce's
JavaScript truthiness guard `if (!!entry)` drops the empty string just
like `undefined`, so the program emits nothing where the claimed
pipeline emits `""`.  The input satisfies the claim's premises: one
enabled entry, distinct keys. -/
theorem claim_C1_counterexample :
    enabledModIds [("", ⟨"v", none⟩)] (some [("v", ⟨0, true, none⟩)]) [] = [] ∧
    reconcileWithUserOrder [("", ⟨"v", none⟩)] [("v", ⟨0, true, none⟩)] = [""] ∧
    enabledModIds [("", ⟨"v", none⟩)] (some [("v", ⟨0, true, none⟩)]) [] ≠
      reconcileWithUserOrder [("", ⟨"v", none⟩)] [("v", ⟨0, true, none⟩)] := by
  decide

/-- C1 (amended): with a nonempty user load order (and the `Map`/object
invariant that cache and load-order keys are pairwise distinct), the
final id sequence is the claim's pipeline amended by the truthiness
guard — the entries filtered to `enabled == true`, stably sorted by
recorded position ascending, each entry's `externalId` mapped to the
cache id of the record carrying that `vortexId`, silently dropping
entries without a matching record and entries whose matched cache id is
the empty string; and on the concrete two-entry order
`{X: pos 1, enabled}, {Y: pos 0, enabled}` the result is `["Y", "X"]`
for either cache scan order. -/
theorem claim_C1_reconcile_user_order (cache : Cache) (lo : LoadOrder)
    (sp : List LauncherModData) (hlo : (lo.map (·.1)).Nodup)
    (hcache : (cacheKeys cache).Nodup) (hne : lo ≠ []) :
    enabledModIds cache (some lo) sp = reconcileWithUserOrderTruthy cache lo ∧
    enabledModIds [("X", ⟨"X", none⟩), ("Y", ⟨"Y", none⟩)]
      (some [("X", ⟨1, true, none⟩), ("Y", ⟨0, true, none⟩)]) [] = ["Y", "X"] ∧
    enabledModIds [("Y", ⟨"Y", none⟩), ("X", ⟨"X", none⟩)]
      (some [("X", ⟨1, true, none⟩), ("Y", ⟨0, true, none⟩)]) [] = ["Y", "X"] := by
  refine ⟨?_, by decide, by decide⟩
  have hlen : 0 < lo.length := List.length_pos.mpr hne
  simp only [enabledModIds, if_pos hlen]
  rw [keys_filter_enabled lo hlo,
    sortByKey_map (loPos lo) (fun p => p.2.pos) (·.1) (lo.filter fun p => p.2.enabled)
      (fun p hp => loPos_agrees lo hlo p (List.mem_of_mem_filter hp))]
  refine (foldl_push_filterMap
    (fun key => (findCacheKeyByVortexId cache key).filter fun cid => cid != "") _ ?hs ?hn
    ((sortByKey (fun p => p.2.pos) (lo.filter fun p => p.2.enabled)).map (·.1)) []).trans ?_
  case hs =>
    intro acc k e h
    cases hf : findCacheKeyByVortexId cache k with
    | none => simp [hf, Option.filter] at h
    | some s =>
      simp only [hf, Option.filter] at h
      split at h
      · injection h with he
        subst he
        simp_all
      · exact absurd h (by simp)
  case hn =>
    intro acc k h
    cases hf : findCacheKeyByVortexId cache k with
    | none => simp [hf]
    | some s =>
      simp only [hf, Option.filter] at h
      split at h
      · exact absurd h (by simp)
      · simp_all
  rw [List.nil_append, List.filterMap_map, reconcileWithUserOrderTruthy]
  apply List.filterMap_congr
  intro p _
  show (findCacheKeyByVortexId cache p.1).filter (fun cid => cid != "") =
    (cacheIdForVortexId cache p.1).filter fun cid => cid != ""
  rw [findCacheKey_eq_pairs cache hcache p.1]
  rfl

/-- C1 (witness). -/
theorem claim_C1_reconcile_user_order_witness :
    (([("X", (⟨1, true, none⟩ : LoadOrderEntry)), ("Y", ⟨0, true, none⟩)].map (·.1)).Nodup ∧
      (cacheKeys [("X", ⟨"X", none⟩), ("Y", ⟨"Y", none⟩)]).Nodup ∧
      [("X", (⟨1, true, none⟩ : LoadOrderEntry)), ("Y", ⟨0, true, none⟩)] ≠ []) ∧
    enabledModIds [("X", ⟨"X", none⟩), ("Y", ⟨"Y", none⟩)]
        (some [("X", ⟨1, true, none⟩), ("Y", ⟨0, true, none⟩)]) [] =
      reconcileWithUserOrderTruthy [("X", ⟨"X", none⟩), ("Y", ⟨"Y", none⟩)]
        [("X", ⟨1, true, none⟩), ("Y", ⟨0, true, none⟩)] :=
  ⟨⟨by decide, by decide, by decide⟩,
   (claim_C1_reconcile_user_order [("X", ⟨"X", none⟩), ("Y", ⟨"Y", none⟩)]
     [("X", ⟨1, true, none⟩), ("Y", ⟨0, true, none⟩)] [] (by decide) (by decide)
     (by decide)).1⟩

/-- C9 (witness). -/
theorem claim_C9_discovery_incomplete_witness :
    getDeployedSubModPaths none "Modules" ["Native"] "submodule.xml" (.ok ["f"]) =
      { notification := none
        result := .error (.processCanceled "game discovery is incomplete") } ∧
    refreshCacheOnEvent "mountandblade2bannerlord" [] (some "p1")
        (some ⟨"p1", "mountandblade2bannerlord"⟩) (some ⟨"p1", "mountandblade2bannerlord"⟩)
        (getDeployedSubModPaths none "Modules" ["Native"] "submodule.xml" (.ok ["f"]))
        [] [] [] "t0" "t1" =
      { cache := [], promise := .ok (), notification := none, params := none } :=
  claim_C9_discovery_incomplete "Modules" "submodule.xml" "mountandblade2bannerlord"
    ["Native"] (.ok ["f"]) [] "p1" ⟨"p1", "mountandblade2bannerlord"⟩
    ⟨"p1", "mountandblade2bannerlord"⟩ [] [] [] "t0" "t1" rfl rfl

end Bannerlord
